import Mathlib

/-!
# Resume-Critic backend — verification of the spec against `src/server.js`

Shallow embedding of the extraction dispatcher, the AI-response cleaner, the
base64 data-URL stripping, and the two resume renderers of `server.js`.
External libraries (`file-type`, `pdfjs-dist`, `mammoth`, `docx`'s `Packer`,
Node's base64 decoder and UTF-8 decoder, the generative-AI client and
`JSON.parse`) are modelled as oracle functions collected in an environment
record; everything the repository's own code does is translated directly.
-/

namespace ResumeCritic

/-- A Node `Buffer`: a sequence of bytes. -/
abbrev Buffer := List Nat

/-- A thrown JavaScript `Error`, reduced to its `message` field
(the only part `server.js` ever inspects). -/
structure Err where
  msg : String
deriving DecidableEq, Repr

/-- A whitespace character in the sense of JavaScript's
`String.prototype.trim` (restricted to the ASCII whitespace characters:
space, tab, line feed, carriage return, vertical tab, form feed). -/
def isWs (c : Char) : Bool :=
  c == ' ' || c == '\t' || c == '\n' || c == '\r'
    || c == Char.ofNat 11 || c == Char.ofNat 12

/-- JavaScript `String.prototype.trim`: drop whitespace from both ends. -/
def jsTrim (s : String) : String :=
  ⟨((s.data.dropWhile isWs).reverse.dropWhile isWs).reverse⟩

/-- `pat` occurs as a contiguous substring of `l`
(JavaScript `String.prototype.includes` on the underlying characters). -/
def occursIn (pat : List Char) : List Char → Bool
  | [] => pat.isEmpty
  | c :: rest => pat.isPrefixOf (c :: rest) || occursIn pat rest

/-- JavaScript `s.includes(pat)`. -/
def includesStr (s pat : String) : Bool :=
  occursIn pat.data s.data

/-- Oracles for the external libraries used by `server.js`:
content-based file-type detection (`fileTypeFromBuffer`, reported as a MIME
string), the primary pdf.js extraction (`extractTextFromPDF`), the fallback
pdf.js extraction with system fonts (`extractTextFromPDFFallback`), the
mammoth raw-text extraction (`extractTextFromDocx`), Node's
`buffer.toString('utf-8')` and `Buffer.from(·, 'base64')`. -/
structure Env where
  detect : Buffer → Option String
  pdfPrimary : Buffer → Except Err String
  pdfFallback : Buffer → Except Err String
  docxExtract : Buffer → Except Err String
  utf8 : Buffer → String
  b64decode : String → Buffer

/-- The modern Word MIME type checked by `extractText`. -/
def docxMime : String :=
  "application/vnd.openxmlformats-officedocument.wordprocessingml.document"

/-- The message of the error thrown at the end of `extractText`. -/
def unsupportedMsg : String :=
  "Unsupported file type. Please upload a PDF, DOCX, DOC, or TXT file."

/-- `const mime = detected?.mime || mimeTypeHint;` — content detection wins
unless it yields nothing (or, per JavaScript falsiness, an empty string). -/
def effectiveMime (env : Env) (buffer : Buffer) (hint : String) : String :=
  match env.detect buffer with
  | some m => if m = "" then hint else m
  | none => hint

/-- `err.message?.includes('standardFontDataUrl') || err.message?.includes('font')` —
the test deciding whether the PDF fallback extractor is tried. -/
def fontRelated (m : String) : Bool :=
  includesStr m "standardFontDataUrl" || includesStr m "font"

/-- The extraction dispatcher `extractText(buffer, mimeTypeHint = "")` of
`server.js` (lines 86–113): classify by content with the hint as fallback,
dispatch to the PDF extractor (with the font-error fallback), the DOCX
extractor, or treat the buffer as UTF-8 text, and otherwise throw the
unsupported-file-type error. -/
def extractText (env : Env) (buffer : Buffer) (hint : String) : Except Err String :=
  let mime := effectiveMime env buffer hint
  if mime = "application/pdf" then
    match env.pdfPrimary buffer with
    | .ok t => .ok t
    | .error e => if fontRelated e.msg then env.pdfFallback buffer else .error e
  else if mime = docxMime || mime = "application/msword" then
    env.docxExtract buffer
  else
    let text := env.utf8 buffer
    if (jsTrim text).length > 0 then .ok text else .error ⟨unsupportedMsg⟩

/-- `resumeText.includes('base64,') ? resumeText.split('base64,')[1] : resumeText`
needs the prefix of a character list up to (excluding) the first occurrence of
`pat`; the whole list when `pat` does not occur. -/
def upToFirst (pat : List Char) : List Char → List Char
  | [] => []
  | c :: rest => if pat.isPrefixOf (c :: rest) then [] else c :: upToFirst pat rest

/-- The remainder of a character list after the first occurrence of `pat`
(empty when `pat` does not occur). -/
def afterFirst (pat : List Char) : List Char → List Char
  | [] => []
  | c :: rest =>
    if pat.isPrefixOf (c :: rest) then (c :: rest).drop pat.length
    else afterFirst pat rest

/-- The data-URL marker split on by the upload handlers. -/
def b64Marker : String := "base64,"

/-- `s.includes('base64,') ? s.split('base64,')[1] : s` (lines 128–130 and
201–203 of `server.js`): element 1 of a JavaScript `split` is the segment
between the first and the second occurrence of the separator — that is, the
part of the remainder after the first occurrence that precedes the next
occurrence (the whole remainder when there is no further occurrence). -/
def stripDataUrl (s : String) : String :=
  if occursIn b64Marker.data s.data then
    ⟨upToFirst b64Marker.data (afterFirst b64Marker.data s.data)⟩
  else s

/-! ## The rewritten-resume data model and the two renderers -/

/-- One entry of `rewrittenResume.experience`. -/
structure Experience where
  title : String
  company : String
  duration : String
  bullets : List String
deriving DecidableEq, Repr

/-- One entry of `rewrittenResume.education`. -/
structure Education where
  degree : String
  institution : String
  duration : String
deriving DecidableEq, Repr

/-- One structured referee object of `rewrittenResume.references`. -/
structure Referee where
  name : String
  title : String
  company : String
  phone : String
  email : String
deriving DecidableEq, Repr

/-- The `references` field: either a table of structured referees or a list
of plain phrases such as `["Available upon request"]`. -/
inductive RefValue where
  | referees (xs : List Referee)
  | phrases (xs : List String)
deriving DecidableEq, Repr

/-- A `RewrittenResume` as produced by the rewrite endpoint and consumed by
`download-resume`. -/
structure Resume where
  name : String
  email : String
  phone : String
  location : String
  summary : String
  experience : List Experience
  education : List Education
  skills : List String
  certifications : List String
  references : RefValue
deriving DecidableEq, Repr

/-- JavaScript `Array.prototype.join`. -/
def joinSep (sep : String) : List String → String
  | [] => ""
  | [x] => x
  | x :: y :: xs => x ++ sep ++ joinSep sep (y :: xs)

/-- The contact line `${email} | ${phone} | ${location}` shared by both
renderers. -/
def contactLine (r : Resume) : String :=
  r.email ++ " | " ++ r.phone ++ " | " ++ r.location

/-- The EXPERIENCE block of the plain-text template:
``experience.map(exp => `\n${title} — ${company} (${duration})\n${bullets
joined}\n`).join('\n')``. -/
def expBlock (es : List Experience) : String :=
  joinSep "\n" (es.map fun exp =>
    "\n" ++ exp.title ++ " — " ++ exp.company ++ " (" ++ exp.duration ++ ")\n"
      ++ joinSep "\n" (exp.bullets.map fun b => "• " ++ b) ++ "\n")

/-- The EDUCATION block of the plain-text template. -/
def eduBlock (es : List Education) : String :=
  joinSep "\n" (es.map fun e =>
    e.degree ++ " — " ++ e.institution ++ " (" ++ e.duration ++ ")")

/-- The plain-text rendering built by `download-resume` (lines 309–330 of
`server.js`): the template literal, trimmed.  The template mentions `name`,
`email`, `phone`, `location`, `summary`, `experience`, `education`, `skills`
and `certifications` — and nothing else; it ends in a newline and the four
spaces of source indentation before `.trim()`. -/
def plainTextRender (r : Resume) : String :=
  ("\n" ++ r.name
    ++ "\n" ++ contactLine r
    ++ "\n\n" ++ "PROFESSIONAL SUMMARY" ++ "\n" ++ r.summary
    ++ "\n\n" ++ "EXPERIENCE" ++ "\n" ++ expBlock r.experience
    ++ "\n\n" ++ "EDUCATION" ++ "\n" ++ eduBlock r.education
    ++ "\n\n" ++ "SKILLS" ++ "\n" ++ joinSep ", " r.skills
    ++ "\n\n" ++ "CERTIFICATIONS" ++ "\n" ++ joinSep "\n" r.certifications
    ++ "\n    ") |> jsTrim

/-- The heading level of a `docx` `Paragraph` used by the handler. -/
inductive HeadingKind where
  | title
  | heading1
deriving DecidableEq, Repr

/-- A `docx` `Paragraph` as constructed by `download-resume`: its text, an
optional heading level, and whether its single `TextRun` is bold. -/
structure Para where
  text : String
  heading : Option HeadingKind := none
  bold : Bool := false
deriving DecidableEq, Repr

/-- `new Paragraph({ text: s, heading: HeadingLevel.HEADING_1 })`. -/
def h1Para (s : String) : Para := { text := s, heading := some .heading1 }

/-- `new Paragraph({ text: "" })`. -/
def blankPara : Para := { text := "" }

/-- The paragraphs one experience entry contributes to the document:
bold `title — company`, the duration, the bullet lines, a blank line. -/
def expParas (exp : Experience) : List Para :=
  { text := exp.title ++ " — " ++ exp.company, bold := true }
    :: { text := exp.duration }
    :: exp.bullets.map (fun b => { text := "• " ++ b })
    ++ [blankPara]

/-- One education entry's paragraph. -/
def eduPara (e : Education) : Para :=
  { text := e.degree ++ " — " ++ e.institution ++ " (" ++ e.duration ++ ")" }

/-- The `children` list of the `docx` `Document` built by `download-resume`
(lines 338–379 of `server.js`), in source order.  The certifications block is
emitted only when `rewrittenResume.certifications?.length` is truthy. -/
def docxChildren (r : Resume) : List Para :=
  [{ text := r.name, heading := some .title },
   { text := contactLine r },
   blankPara,
   h1Para "PROFESSIONAL SUMMARY",
   { text := r.summary },
   blankPara,
   h1Para "EXPERIENCE"]
  ++ r.experience.flatMap expParas
  ++ [h1Para "EDUCATION"]
  ++ r.education.map eduPara
  ++ [blankPara,
      h1Para "SKILLS",
      { text := joinSep ", " r.skills },
      blankPara]
  ++ (if r.certifications.length > 0 then
        h1Para "CERTIFICATIONS" :: r.certifications.map (fun c => { text := c })
      else [])

/-! ## Common section content shared by the two renderings (for the
round-trip claim): both renderers emit the same ordered sections, each
renderer adding its own markup. -/

/-- The content of one labeled resume section. -/
inductive Sect where
  | summary (text : String)
  | experience (entries : List Experience)
  | education (entries : List Education)
  | skills (xs : List String)
  | certifications (xs : List String)
deriving DecidableEq, Repr

/-- The ordered section content of a resume: summary, experience, education,
skills, certifications. -/
def commonSections (r : Resume) : List Sect :=
  [.summary r.summary, .experience r.experience, .education r.education,
   .skills r.skills, .certifications r.certifications]

/-- The plain-text markup of one section: its header line followed by its
body block, exactly as in the template of lines 309–330. -/
def sectPlain : Sect → String
  | .summary s => "PROFESSIONAL SUMMARY" ++ "\n" ++ s
  | .experience es => "EXPERIENCE" ++ "\n" ++ expBlock es
  | .education es => "EDUCATION" ++ "\n" ++ eduBlock es
  | .skills xs => "SKILLS" ++ "\n" ++ joinSep ", " xs
  | .certifications xs => "CERTIFICATIONS" ++ "\n" ++ joinSep "\n" xs

/-- The word-processing markup of one section: a HEADING_1 paragraph followed
by the section's paragraphs, exactly as in the `Document` of lines 338–379. -/
def sectParas : Sect → List Para
  | .summary s => [h1Para "PROFESSIONAL SUMMARY", { text := s }, blankPara]
  | .experience es => h1Para "EXPERIENCE" :: es.flatMap expParas
  | .education es => h1Para "EDUCATION" :: es.map eduPara ++ [blankPara]
  | .skills xs => [h1Para "SKILLS", { text := joinSep ", " xs }, blankPara]
  | .certifications xs => h1Para "CERTIFICATIONS" :: xs.map (fun c => { text := c })

/-- Assembling a plain-text resume from header data and an ordered list of
sections: the sections are separated by blank lines, and the whole is trimmed. -/
def assemblePlain (r : Resume) (secs : List Sect) : String :=
  ("\n" ++ r.name ++ "\n" ++ contactLine r ++ "\n\n"
    ++ joinSep "\n\n" (secs.map sectPlain) ++ "\n    ") |> jsTrim

/-- Assembling the document paragraphs from header data and an ordered list
of sections. -/
def assembleParas (r : Resume) (secs : List Sect) : List Para :=
  [{ text := r.name, heading := some .title },
   { text := contactLine r },
   blankPara]
  ++ secs.flatMap sectParas

/-! ## The AI-response cleaner -/

/-- The seven-character fence-with-tag alternative of the regular expression
in ``text.replace(/```json|```/g, "")``. -/
def fenceJson : List Char := "```json".data

/-- The bare triple-backtick alternative of the same regular expression. -/
def fence3 : List Char := "```".data

/-- Global replacement of ``/```json|```/`` by the empty string: scan left to
right; at each position remove a ```` ```json ```` match (preferred, as the
leftmost alternative) or a ```` ``` ```` match, otherwise keep the character.
`(c :: rest).drop 7 = rest.drop 6` and `(c :: rest).drop 3 = rest.drop 2`. -/
def stripFences (l : List Char) : List Char :=
  match l with
  | [] => []
  | c :: rest =>
    if fenceJson.isPrefixOf (c :: rest) then stripFences (rest.drop 6)
    else if fence3.isPrefixOf (c :: rest) then stripFences (rest.drop 2)
    else c :: stripFences rest
termination_by l.length
decreasing_by
  · simp [List.length_drop]; omega
  · simp [List.length_drop]; omega
  · simp

/-- ``const cleanJson = text.replace(/```json|```/g, "").trim();`` (lines 175
and 290 of `server.js`): the string handed to `JSON.parse`. -/
def cleanJson (s : String) : String :=
  jsTrim (String.mk (stripFences s.data))

/-! ## The HTTP handlers -/

/-- The request body of `analyze-resume`; absent JSON fields are `none`. -/
structure AnalyzeReq where
  resumeText : Option String
  mimeType : Option String

/-- A JSON response of `analyze-resume`, with the HTTP status, the `success`
flag, the `error` and `details` strings when present, and the parsed critique
payload (of an abstract JSON type `κ`) on success. -/
structure ApiResp (κ : Type) where
  status : Nat
  success : Bool
  error : Option String := none
  details : Option String := none
  payload : Option κ := none

/-- The catch-all `500` response of the `analyze-resume` handler. -/
def mk500 {κ : Type} (details : String) : ApiResp κ :=
  { status := 500, success := false, error := some "AI analysis failed",
    details := some details }

/-- The message thrown when the extracted text is under the 10-character
floor. -/
def emptyContentMsg : String :=
  "The file appears to be empty or image-based (e.g. a scanned PDF)."

/-- The `POST /api/analyze-resume` handler (lines 121–188 of `server.js`).
`ai` models `model.generateContent` composed with the prompt construction
(the prompt interpolates the extracted text; the AI call may throw), and
`jsonParse` models `JSON.parse` into an abstract critique type `κ`.
Control flow: 400 on a missing or falsy `resumeText`; strip the data-URL
marker and base64-decode; extraction errors are rethrown with their message
(or a fixed fallback message when it is empty) and caught as a 500; text
under the 10-character floor after trimming throws the empty-content error;
then the AI reply is fence-stripped, trimmed and JSON-parsed. -/
def analyzeResume {κ : Type} (env : Env) (ai : String → Except Err String)
    (jsonParse : String → Except Err κ) (req : AnalyzeReq) : ApiResp κ :=
  match req.resumeText with
  | none => { status := 400, success := false, error := some "No resume file provided" }
  | some rt =>
    if rt = "" then
      { status := 400, success := false, error := some "No resume file provided" }
    else
      let buffer := env.b64decode (stripDataUrl rt)
      match extractText env buffer ((req.mimeType).getD "") with
      | .error parseErr =>
        mk500 (if parseErr.msg = "" then "Could not read file content." else parseErr.msg)
      | .ok extractedText =>
        if extractedText = "" || (jsTrim extractedText).length < 10 then
          mk500 emptyContentMsg
        else
          match ai extractedText with
          | .error e => mk500 e.msg
          | .ok text =>
            match jsonParse (cleanJson text) with
            | .error e => mk500 e.msg
            | .ok critique =>
              { status := 200, success := true, payload := some critique }

/-- The request body of `download-resume`. -/
structure DownloadReq where
  rewrittenResume : Option Resume
  format : Option String

/-- A `download-resume` response: a 400 JSON error, a `text/plain`
attachment, a binary attachment (content type, filename, packed bytes), or
the JSON body `{success, plainText}` returned for the `pdf` format. -/
inductive DlResp where
  | badRequest (error : String)
  | textAttachment (contentType filename body : String)
  | binaryAttachment (contentType filename : String) (body : Buffer)
  | jsonOk (success : Bool) (plainText : String)
deriving DecidableEq, Repr

/-- Whether a `download-resume` response carries a binary payload. -/
def DlResp.isBinary : DlResp → Bool
  | .binaryAttachment .. => true
  | _ => false

/-- The Office Open XML content type set for `doc`/`docx` downloads. -/
def ooxmlMime : String :=
  "application/vnd.openxmlformats-officedocument.wordprocessingml.document"

/-- The `POST /api/download-resume` handler (lines 301–397 of `server.js`).
`pack` models `Packer.toBuffer` on the built `Document` (identified with its
`children` paragraph list).  400 on missing/falsy fields; the plain text is
rendered once; `txt` sends it as an attachment; `docx` and `doc` build the
same document and differ only in the filename `resume.${format}`; `pdf`
returns `{success:true, plainText}` with no binary; anything else is a 400. -/
def downloadResume (pack : List Para → Buffer) (req : DownloadReq) : DlResp :=
  match req.rewrittenResume, req.format with
  | some r, some fmt =>
    if fmt = "" then .badRequest "Missing resume data or format"
    else
      let plainText := plainTextRender r
      if fmt = "txt" then .textAttachment "text/plain" "resume.txt" plainText
      else if fmt = "docx" || fmt = "doc" then
        .binaryAttachment ooxmlMime ("resume." ++ fmt) (pack (docxChildren r))
      else if fmt = "pdf" then .jsonOk true plainText
      else .badRequest "Unsupported format"
  | _, _ => .badRequest "Missing resume data or format"

/-! ## Claim theorems -/

/-- C8: for every `download-resume` request with format `"pdf"` and a present
`rewrittenResume`, the response is the JSON object
`{success: true, plainText: <the plain-text rendering>}` and no binary
payload is produced. -/
theorem download_pdf_returns_plaintext_json (pack : List Para → Buffer) (r : Resume) :
    downloadResume pack ⟨some r, some "pdf"⟩ = .jsonOk true (plainTextRender r)
      ∧ (downloadResume pack ⟨some r, some "pdf"⟩).isBinary = false := by
  constructor <;> rfl

/-- C10: for every `RewrittenResume`, a `download-resume` request with format
`"doc"` and one with format `"docx"` produce the same packed document bytes
(the handler builds the identical `Document` in both branches, and
`Packer.toBuffer` is modelled as a function of the document) and the same
Office Open XML content type; the two responses differ only in the attachment
filename extension. -/
theorem download_doc_docx_same_bytes (pack : List Para → Buffer) (r : Resume) :
    downloadResume pack ⟨some r, some "docx"⟩
        = .binaryAttachment ooxmlMime "resume.docx" (pack (docxChildren r))
      ∧ downloadResume pack ⟨some r, some "doc"⟩
        = .binaryAttachment ooxmlMime "resume.doc" (pack (docxChildren r)) := by
  constructor <;> rfl

/-- C4: for every PDF buffer whose primary extraction throws an error whose
message indicates a font-resource problem (it contains
`standardFontDataUrl` or `font`), the dispatcher invokes the fallback PDF
extractor and returns its result or error; on any other primary-extraction
error no fallback is attempted and the original error propagates. -/
theorem pdf_font_fallback (env : Env) (b : Buffer) (hint : String) (e : Err)
    (hm : effectiveMime env b hint = "application/pdf")
    (he : env.pdfPrimary b = .error e) :
    (fontRelated e.msg = true → extractText env b hint = env.pdfFallback b)
      ∧ (fontRelated e.msg = false → extractText env b hint = .error e) := by
  unfold extractText
  rw [hm, he]
  constructor <;> intro hf <;> simp [hf]

/-- A concrete environment exercising the PDF font fallback: the primary
extractor fails with a font message, the fallback succeeds. -/
def envFontDemo : Env where
  detect := fun _ => some "application/pdf"
  pdfPrimary := fun _ => .error ⟨"Missing font data"⟩
  pdfFallback := fun _ => .ok "recovered text"
  docxExtract := fun _ => .error ⟨"not a docx"⟩
  utf8 := fun _ => ""
  b64decode := fun _ => []

/-- Witness for C4: on a concrete environment whose primary PDF extraction
throws a font-related error, the dispatcher returns the fallback result. -/
theorem pdf_font_fallback_witness :
    extractText envFontDemo [] "" = .ok "recovered text" := by
  have h := (pdf_font_fallback envFontDemo [] "" ⟨"Missing font data"⟩ rfl rfl).1
    (by decide)
  simpa [envFontDemo] using h

/-- C6: format detection first classifies the buffer by its content; the
caller-supplied MIME-type hint is consulted only when content-based detection
yields no match, so for every buffer whose content is recognized (detection
returns a MIME string, which is never empty for the `file-type` library), the
hint has no effect on dispatch. -/
theorem hint_irrelevant_when_detected (env : Env) (b : Buffer) (m : String)
    (hd : env.detect b = some m) (hm : m ≠ "") (hint hint' : String) :
    extractText env b hint = extractText env b hint' := by
  unfold extractText effectiveMime
  rw [hd]
  simp [hm]

/-- Witness for C6: in the concrete font-demo environment the dispatch result
is the same under two different hints. -/
theorem hint_irrelevant_when_detected_witness :
    extractText envFontDemo [] "text/plain" = extractText envFontDemo [] "application/msword" :=
  hint_irrelevant_when_detected envFontDemo [] "application/pdf" rfl (by decide)
    "text/plain" "application/msword"

/-- A concrete `RewrittenResume` whose references field is the single-element
list `["Available upon request"]` (the failing input for the references
scenario). -/
def refResume : Resume where
  name := "Jane Roe"
  email := "jane@example.com"
  phone := "555-0100"
  location := "Springfield"
  summary := "Engineer."
  experience := [⟨"Engineer", "Acme", "2020-2024", ["Built tools"]⟩]
  education := [⟨"BSc", "State U", "2016-2020"⟩]
  skills := ["Lean", "JS"]
  certifications := ["Cert A"]
  references := .phrases ["Available upon request"]

/-- C1 (evaluation at the failing input): the plain-text template of
`download-resume` never mentions the `references` field, so rendering a
resume whose references are `["Available upon request"]` produces output
that does NOT contain that phrase — contrary to the spec's scenario — and in
general the rendering is independent of the references field. -/
theorem plainText_drops_references :
    includesStr (plainTextRender refResume) "Available upon request" = false
      ∧ ∀ (r : Resume) (v : RefValue),
          plainTextRender { r with references := v } = plainTextRender r := by
  exact ⟨by decide, fun r v => rfl⟩

/-- ASCII bytes decoded as UTF-8 text (`buffer.toString('utf-8')` restricted
to ASCII input, where the two coincide). -/
def asciiDecode (b : Buffer) : String :=
  String.mk (b.map Char.ofNat)

/-- The ASCII bytes of `"short"`. -/
def bufShort : Buffer := [115, 104, 111, 114, 116]

/-- An environment in which content detection finds no match and the buffer
is taken as UTF-8 plain text. -/
def envPlainAscii : Env where
  detect := fun _ => none
  pdfPrimary := fun _ => .error ⟨"pdf failed"⟩
  pdfFallback := fun _ => .error ⟨"pdf failed"⟩
  docxExtract := fun _ => .error ⟨"docx failed"⟩
  utf8 := asciiDecode
  b64decode := fun _ => []

/-- C3 (counterexample): the extraction dispatcher returns the 5-character
text `"short"` as a success — it does not itself signal the empty-content
failure for text under the 10-character floor. -/
theorem dispatcher_returns_short_text :
    extractText envPlainAscii bufShort "" = .ok "short"
      ∧ (jsTrim "short").length < 10 := by
  exact ⟨rfl, by decide⟩

/-- An environment whose PDF extraction yields the fixed text `t` (used to
drive the handler with an arbitrary extraction result). -/
def stubPdfEnv (t : String) : Env where
  detect := fun _ => some "application/pdf"
  pdfPrimary := fun _ => .ok t
  pdfFallback := fun _ => .ok t
  docxExtract := fun _ => .error ⟨"docx failed"⟩
  utf8 := fun _ => ""
  b64decode := fun _ => []

/-- C3 (amended): the dispatcher returns extracted text below the
10-character floor as a success; the floor is enforced by the
`analyze-resume` handler, which fails with the empty-content error (surfaced
as a 500) whenever the extracted text's trimmed length is under 10. -/
theorem short_text_rejected_by_handler (t : String) (h : (jsTrim t).length < 10) :
    extractText (stubPdfEnv t) [] "" = .ok t
      ∧ ∀ (ai : String → Except Err String) (jsonParse : String → Except Err String),
          analyzeResume (stubPdfEnv t) ai jsonParse ⟨some "AAAA", none⟩
            = mk500 emptyContentMsg := by
  have hex : extractText (stubPdfEnv t) [] "" = .ok t := by
    unfold extractText effectiveMime stubPdfEnv
    simp
  refine ⟨hex, fun ai jsonParse => ?_⟩
  simp only [analyzeResume]
  rw [if_neg (by decide : ¬("AAAA" = ""))]
  simp only [Option.getD_none]
  rw [show (stubPdfEnv t).b64decode (stripDataUrl "AAAA") = [] from rfl]
  rw [hex]
  simp [h]

/-- Witness for C3's amended theorem at the concrete text `"short"`. -/
theorem short_text_rejected_by_handler_witness :
    analyzeResume (stubPdfEnv "short") (fun _ => .error ⟨"unused"⟩)
        (fun s => (.ok s : Except Err String)) ⟨some "AAAA", none⟩
      = mk500 emptyContentMsg :=
  (short_text_rejected_by_handler "short" (by decide)).2
    (fun _ => .error ⟨"unused"⟩) (fun s => .ok s)

/-- C2 (amended, factoring direction): for every `RewrittenResume` with a
nonempty certifications list, the plain-text rendering and the document
rendering both factor through the same ordered section content — summary,
experience, education, skills, certifications, in that order — each side
adding only its own structural markup. -/
theorem plain_docx_same_sections (r : Resume) (h : r.certifications ≠ []) :
    plainTextRender r = assemblePlain r (commonSections r)
      ∧ docxChildren r = assembleParas r (commonSections r) := by
  have hl : r.certifications.length > 0 := List.length_pos.mpr h
  constructor
  · unfold plainTextRender assemblePlain commonSections
    simp only [List.map, sectPlain, joinSep]
    simp only [String.append_assoc]
  · unfold docxChildren assembleParas commonSections
    simp only [List.flatMap_cons, List.flatMap_nil, sectParas, hl, if_pos]
    simp [List.append_assoc]

/-- Witness for C2's amended theorem at a concrete resume with a nonempty
certifications list. -/
theorem plain_docx_same_sections_witness :
    plainTextRender refResume = assemblePlain refResume (commonSections refResume)
      ∧ docxChildren refResume = assembleParas refResume (commonSections refResume) :=
  plain_docx_same_sections refResume (by decide)

/-- A resume with an empty certifications list (the input on which the two
renderings disagree about the certifications section). -/
def noCertResume : Resume := { refResume with certifications := [] }

/-- C2 (counterexample): with an empty certifications list the plain-text
rendering still contains a `CERTIFICATIONS` section header while the document
rendering contains no `CERTIFICATIONS` paragraph at all, so the two renderings
do not have identical section ordering and content for the certifications
section. -/
theorem plain_docx_certifications_mismatch :
    includesStr (plainTextRender noCertResume) "CERTIFICATIONS" = true
      ∧ (docxChildren noCertResume).all (fun p => p.text ≠ "CERTIFICATIONS") = true := by
  exact ⟨by decide, by decide⟩

/-! ## Splitting on the data-URL marker -/

/-- A pattern none of whose proper nonempty suffixes is one of its prefixes.
Occurrences of such a pattern cannot straddle the boundary of an explicitly
placed copy of the pattern. -/
def OverlapFree (pat : List Char) : Prop :=
  ∀ k, k < pat.length → 0 < k → ¬ (pat.drop k <+: pat)

theorem b64Marker_overlapFree : OverlapFree b64Marker.data := by
  unfold OverlapFree
  decide

theorem b64Marker_ne_nil : b64Marker.data ≠ [] := by decide

theorem isPrefixOf_append_self (pat ys : List Char) :
    pat.isPrefixOf (pat ++ ys) = true :=
  List.isPrefixOf_iff_prefix.mpr (List.prefix_append pat ys)

/-- An overlap-free pattern that is a prefix of `a ++ (pat ++ tail)` either
sits at the very start (`a = []`) or lies entirely inside `a`. -/
theorem prefix_through_append {pat a tail : List Char} (hof : OverlapFree pat)
    (h : pat.isPrefixOf (a ++ (pat ++ tail)) = true) :
    a = [] ∨ pat.isPrefixOf a = true := by
  rw [List.isPrefixOf_iff_prefix] at h
  by_cases hlen : pat.length ≤ a.length
  · right
    rw [List.isPrefixOf_iff_prefix]
    have ht := List.prefix_iff_eq_take.mp h
    rw [List.take_append_eq_append_take, Nat.sub_eq_zero_of_le hlen,
      List.take_zero, List.append_nil] at ht
    rw [ht]
    exact List.take_prefix _ _
  · push_neg at hlen
    rcases Nat.eq_zero_or_pos a.length with h0 | hpos
    · exact Or.inl (List.eq_nil_of_length_eq_zero h0)
    · exfalso
      apply hof a.length hlen hpos
      have ht := List.prefix_iff_eq_take.mp h
      rw [List.take_append_eq_append_take,
        List.take_of_length_le (Nat.le_of_lt hlen)] at ht
      have h2 : pat.drop a.length = (pat ++ tail).take (pat.length - a.length) := by
        conv_lhs => rw [ht]
        rw [List.drop_left]
      rw [h2, List.take_append_eq_append_take,
        Nat.sub_eq_zero_of_le (Nat.sub_le _ _), List.take_zero, List.append_nil]
      exact List.take_prefix _ _

theorem afterFirst_self (pat tail : List Char) (hpat : pat ≠ []) :
    afterFirst pat (pat ++ tail) = tail := by
  match pat, hpat with
  | p :: ps, _ =>
    show afterFirst (p :: ps) (p :: (ps ++ tail)) = tail
    rw [afterFirst]
    rw [show (p :: (ps ++ tail)) = (p :: ps) ++ tail from rfl,
      isPrefixOf_append_self]
    simp [List.drop_left]

theorem upToFirst_self (pat tail : List Char) (hpat : pat ≠ []) :
    upToFirst pat (pat ++ tail) = [] := by
  match pat, hpat with
  | p :: ps, _ =>
    show upToFirst (p :: ps) (p :: (ps ++ tail)) = []
    rw [upToFirst]
    rw [show (p :: (ps ++ tail)) = (p :: ps) ++ tail from rfl,
      isPrefixOf_append_self]
    simp

theorem afterFirst_append {pat : List Char} (hof : OverlapFree pat) (hpat : pat ≠ [])
    (a tail : List Char) (ha : occursIn pat a = false) :
    afterFirst pat (a ++ (pat ++ tail)) = tail := by
  induction a with
  | nil => simpa using afterFirst_self pat tail hpat
  | cons c a' ih =>
    rw [occursIn, Bool.or_eq_false_iff] at ha
    have hnp : pat.isPrefixOf ((c :: a') ++ (pat ++ tail)) = false := by
      cases hb : pat.isPrefixOf ((c :: a') ++ (pat ++ tail)) with
      | false => rfl
      | true =>
        rcases prefix_through_append hof hb with h | h
        · exact absurd h (by simp)
        · exact absurd h (by simp [ha.1])
    show afterFirst pat (c :: (a' ++ (pat ++ tail))) = tail
    rw [afterFirst]
    rw [show (c :: (a' ++ (pat ++ tail))) = (c :: a') ++ (pat ++ tail) from rfl, hnp]
    simp only [Bool.false_eq_true, if_false]
    exact ih ha.2

theorem upToFirst_append {pat : List Char} (hof : OverlapFree pat) (hpat : pat ≠ [])
    (a tail : List Char) (ha : occursIn pat a = false) :
    upToFirst pat (a ++ (pat ++ tail)) = a := by
  induction a with
  | nil => simpa using upToFirst_self pat tail hpat
  | cons c a' ih =>
    rw [occursIn, Bool.or_eq_false_iff] at ha
    have hnp : pat.isPrefixOf ((c :: a') ++ (pat ++ tail)) = false := by
      cases hb : pat.isPrefixOf ((c :: a') ++ (pat ++ tail)) with
      | false => rfl
      | true =>
        rcases prefix_through_append hof hb with h | h
        · exact absurd h (by simp)
        · exact absurd h (by simp [ha.1])
    show upToFirst pat (c :: (a' ++ (pat ++ tail))) = c :: a'
    rw [upToFirst]
    rw [show (c :: (a' ++ (pat ++ tail))) = (c :: a') ++ (pat ++ tail) from rfl, hnp]
    simp only [Bool.false_eq_true, if_false]
    rw [ih ha.2]

theorem upToFirst_no_occur {pat l : List Char} (h : occursIn pat l = false) :
    upToFirst pat l = l := by
  induction l with
  | nil => rfl
  | cons c rest ih =>
    rw [occursIn, Bool.or_eq_false_iff] at h
    rw [upToFirst, h.1]
    simp only [Bool.false_eq_true, if_false]
    rw [ih h.2]

theorem occursIn_append_pat (pat a tail : List Char) (hpat : pat ≠ []) :
    occursIn pat (a ++ (pat ++ tail)) = true := by
  induction a with
  | nil =>
    match pat, hpat with
    | p :: ps, _ =>
      show occursIn (p :: ps) (p :: (ps ++ tail)) = true
      rw [occursIn,
        show (p :: (ps ++ tail)) = (p :: ps) ++ tail from rfl,
        isPrefixOf_append_self]
      simp
  | cons c a' ih =>
    show occursIn pat (c :: (a' ++ (pat ++ tail))) = true
    rw [occursIn, ih]
    simp

/-- C9: the handlers base64-decode exactly the segment of the uploaded
payload strictly between the first and the second occurrence of `"base64,"`
(the remainder of the string when the marker occurs exactly once), silently
dropping data after a second occurrence; a payload with no marker is decoded
whole. -/
theorem stripDataUrl_segment (a b c : List Char)
    (ha : occursIn b64Marker.data a = false)
    (hb : occursIn b64Marker.data b = false) :
    stripDataUrl ⟨a ++ b64Marker.data ++ b ++ b64Marker.data ++ c⟩ = ⟨b⟩
      ∧ stripDataUrl ⟨a ++ b64Marker.data ++ b⟩ = ⟨b⟩
      ∧ ∀ s : String, occursIn b64Marker.data s.data = false → stripDataUrl s = s := by
  refine ⟨?_, ?_, ?_⟩
  · show stripDataUrl ⟨((a ++ b64Marker.data) ++ b ++ b64Marker.data) ++ c⟩ = ⟨b⟩
    rw [show ((a ++ b64Marker.data) ++ b ++ b64Marker.data) ++ c
        = a ++ (b64Marker.data ++ (b ++ (b64Marker.data ++ c))) by
      simp [List.append_assoc]]
    unfold stripDataUrl
    rw [show (String.mk (a ++ (b64Marker.data ++ (b ++ (b64Marker.data ++ c))))).data
        = a ++ (b64Marker.data ++ (b ++ (b64Marker.data ++ c))) from rfl]
    rw [occursIn_append_pat _ _ _ b64Marker_ne_nil]
    simp only [if_true]
    rw [afterFirst_append b64Marker_overlapFree b64Marker_ne_nil _ _ ha]
    rw [upToFirst_append b64Marker_overlapFree b64Marker_ne_nil _ _ hb]
  · show stripDataUrl ⟨(a ++ b64Marker.data) ++ b⟩ = ⟨b⟩
    rw [show (a ++ b64Marker.data) ++ b = a ++ (b64Marker.data ++ b) by
      simp [List.append_assoc]]
    unfold stripDataUrl
    rw [show (String.mk (a ++ (b64Marker.data ++ b))).data
        = a ++ (b64Marker.data ++ b) from rfl]
    rw [occursIn_append_pat _ _ _ b64Marker_ne_nil]
    simp only [if_true]
    rw [afterFirst_append b64Marker_overlapFree b64Marker_ne_nil _ _ ha]
    rw [upToFirst_no_occur hb]
  · intro s hs
    unfold stripDataUrl
    rw [hs]
    simp

/-- Witness for C9 at a concrete data-URL payload with a second marker
occurrence: only the segment between the two markers is kept. -/
theorem stripDataUrl_segment_witness :
    stripDataUrl ⟨"data:application/pdf;".data ++ b64Marker.data ++ "QUJD".data
        ++ b64Marker.data ++ "trailing".data⟩ = ⟨"QUJD".data⟩ :=
  (stripDataUrl_segment "data:application/pdf;".data "QUJD".data "trailing".data
    (by decide) (by decide)).1

/-! ## Fence stripping removes every fence marker -/

/-- The backtick character. -/
def tickChar : Char := Char.ofNat 96

theorem stripFences_nil : stripFences [] = [] := by
  rw [stripFences]

theorem fence3_eq : fence3 = [tickChar, tickChar, tickChar] := by decide

theorem fenceJson_eq :
    fenceJson = [tickChar, tickChar, tickChar, 'j', 's', 'o', 'n'] := by decide

theorem fence3_of_fenceJson {l : List Char} (h : fenceJson.isPrefixOf l = true) :
    fence3.isPrefixOf l = true := by
  rw [List.isPrefixOf_iff_prefix] at h ⊢
  exact List.IsPrefix.trans (by decide) h

/-- A character list with no triple-backtick marker passes through the fence
stripper unchanged. -/
theorem stripFences_id {l : List Char} (h : occursIn fence3 l = false) :
    stripFences l = l := by
  induction l using stripFences.induct with
  | case1 => exact stripFences_nil
  | case2 c rest h1 ih =>
    rw [occursIn, Bool.or_eq_false_iff] at h
    exact absurd (fence3_of_fenceJson h1) (by simp [h.1])
  | case3 c rest h1 h2 ih =>
    rw [occursIn, Bool.or_eq_false_iff] at h
    exact absurd h2 (by simp [h.1])
  | case4 c rest h1 h2 ih =>
    rw [occursIn, Bool.or_eq_false_iff] at h
    rw [Bool.not_eq_true] at h1 h2
    rw [stripFences]
    simp only [h1, h2, Bool.false_eq_true, if_false]
    rw [ih h.2]

/-- If a list does not start with a backtick, neither does its fence-stripped
form. -/
theorem stripFences_head_tick {l : List Char}
    (h : [tickChar].isPrefixOf l = false) :
    [tickChar].isPrefixOf (stripFences l) = false := by
  match l with
  | [] => rw [stripFences_nil]; exact h
  | c :: rest =>
    have hc : (tickChar == c) = false := by
      simpa [List.isPrefixOf] using h
    have hj : fenceJson.isPrefixOf (c :: rest) = false := by
      rw [fenceJson_eq]; simp [List.isPrefixOf, hc]
    have h3 : fence3.isPrefixOf (c :: rest) = false := by
      rw [fence3_eq]; simp [List.isPrefixOf, hc]
    rw [stripFences]
    simp only [hj, h3, Bool.false_eq_true, if_false]
    simp [List.isPrefixOf, hc]

/-- A nonempty pattern starting with a backtick is no prefix of a list that
does not start with a backtick. -/
theorem not_tick_head {rest : List Char} (hr : [tickChar].isPrefixOf rest = false)
    (xs : List Char) : (tickChar :: xs).isPrefixOf rest = false := by
  match rest with
  | [] => rfl
  | d :: rest' =>
    have hd : (tickChar == d) = false := by
      simpa [List.isPrefixOf] using hr
    simp [List.isPrefixOf, hd]

/-- If a list does not start with two backticks, neither does its
fence-stripped form. -/
theorem stripFences_head_tick2 {l : List Char}
    (h : [tickChar, tickChar].isPrefixOf l = false) :
    [tickChar, tickChar].isPrefixOf (stripFences l) = false := by
  match l with
  | [] => rw [stripFences_nil]; exact h
  | c :: rest =>
    by_cases hc : (tickChar == c) = true
    · have hr : [tickChar].isPrefixOf rest = false := by
        rw [List.isPrefixOf] at h
        simpa [hc] using h
      have hj : fenceJson.isPrefixOf (c :: rest) = false := by
        rw [fenceJson_eq]
        rw [List.isPrefixOf]
        simp [hc, not_tick_head hr]
      have h3 : fence3.isPrefixOf (c :: rest) = false := by
        rw [fence3_eq]
        rw [List.isPrefixOf]
        simp [hc, not_tick_head hr]
      rw [stripFences]
      simp only [hj, h3, Bool.false_eq_true, if_false]
      rw [List.isPrefixOf]
      simp [hc, stripFences_head_tick hr]
    · have hc' : (tickChar == c) = false := by simpa using hc
      have hj : fenceJson.isPrefixOf (c :: rest) = false := by
        rw [fenceJson_eq]; simp [List.isPrefixOf, hc']
      have h3 : fence3.isPrefixOf (c :: rest) = false := by
        rw [fence3_eq]; simp [List.isPrefixOf, hc']
      rw [stripFences]
      simp only [hj, h3, Bool.false_eq_true, if_false]
      simp [List.isPrefixOf, hc']

/-- The fence stripper's output contains no triple-backtick marker anywhere. -/
theorem stripFences_no_fence (l : List Char) :
    occursIn fence3 (stripFences l) = false := by
  induction l using stripFences.induct with
  | case1 => rw [stripFences_nil]; rfl
  | case2 c rest h1 ih =>
    rw [stripFences, if_pos h1]
    exact ih
  | case3 c rest h1 h2 ih =>
    rw [stripFences, if_neg h1, if_pos h2]
    exact ih
  | case4 c rest h1 h2 ih =>
    rw [Bool.not_eq_true] at h1 h2
    rw [stripFences]
    simp only [h1, h2, Bool.false_eq_true, if_false]
    rw [occursIn, Bool.or_eq_false_iff]
    refine ⟨?_, ih⟩
    by_cases hc : (tickChar == c) = true
    · have hr : [tickChar, tickChar].isPrefixOf rest = false := by
        rw [fence3_eq] at h2
        rw [List.isPrefixOf] at h2
        simpa [hc] using h2
      rw [fence3_eq, List.isPrefixOf]
      simp [hc, stripFences_head_tick2 hr]
    · have hc' : (tickChar == c) = false := by simpa using hc
      rw [fence3_eq]
      simp [List.isPrefixOf, hc']

theorem occursIn_characterization (pat l : List Char) :
    occursIn pat l = true ↔ pat <:+: l := by
  induction l with
  | nil => simp [occursIn, List.infix_nil, List.isEmpty_iff]
  | cons c rest ih =>
    rw [occursIn, Bool.or_eq_true, List.isPrefixOf_iff_prefix, ih,
      List.infix_cons_iff]

/-- Trimming only removes characters at the two ends, so the trimmed string's
characters form a contiguous segment of the original. -/
theorem jsTrim_data_contiguous (s : String) : (jsTrim s).data <:+: s.data := by
  show ((s.data.dropWhile isWs).reverse.dropWhile isWs).reverse <:+: s.data
  have h1 : s.data.dropWhile isWs <:+ s.data := List.dropWhile_suffix _
  have h2 : (s.data.dropWhile isWs).reverse.dropWhile isWs
      <:+ (s.data.dropWhile isWs).reverse := List.dropWhile_suffix _
  have h3 : ((s.data.dropWhile isWs).reverse.dropWhile isWs).reverse
      <+: s.data.dropWhile isWs := by
    rw [← List.reverse_suffix]
    simpa using h2
  exact h3.isInfix.trans h1.isInfix

/-- C5: the response parser removes every triple-backtick code-fence marker
(with or without a following `json` tag — a tagged fence starts with the bare
fence, so no marker of either kind survives) anywhere in the text and trims
whitespace before JSON-parsing; a reply containing no fence is passed to
`JSON.parse` exactly as its trimmed self. -/
theorem cleanJson_spec (s : String) :
    (includesStr s "```" = false → cleanJson s = jsTrim s)
      ∧ includesStr (cleanJson s) "```" = false := by
  constructor
  · intro h
    show jsTrim (String.mk (stripFences s.data)) = jsTrim s
    rw [stripFences_id (h : occursIn fence3 s.data = false)]
  · show occursIn fence3 (cleanJson s).data = false
    by_contra hb
    rw [Bool.not_eq_false] at hb
    have hinf : fence3 <:+: (cleanJson s).data := (occursIn_characterization _ _).mp hb
    have hinf2 : fence3 <:+: stripFences s.data :=
      hinf.trans (jsTrim_data_contiguous (String.mk (stripFences s.data)))
    have := (occursIn_characterization _ _).mpr hinf2
    rw [stripFences_no_fence] at this
    exact Bool.false_ne_true this

/-- Witness for C5 at a fence-free reply: the parser input is exactly the
trimmed reply. -/
theorem cleanJson_spec_witness :
    cleanJson " [1, 2] " = jsTrim " [1, 2] " :=
  (cleanJson_spec " [1, 2] ").1 (by decide)

/-- `""` has length 0 and is the only such string. -/
theorem jsTrim_eq_empty_iff (s : String) : s = "" ↔ s.length = 0 := by
  constructor
  · intro h; rw [h]; rfl
  · intro h
    cases s with
    | mk data =>
      cases data with
      | nil => rfl
      | cons c rest => simp [String.length] at h

/-- C7: the extraction dispatcher fails with the unsupported-file-type error
— whose message enumerates the accepted types PDF, DOCX, DOC and TXT —
exactly when the effective MIME classification is neither PDF nor Word and
the buffer's UTF-8 decoding trims to the empty string (assuming the external
extractors never themselves throw that exact message, which pdf.js and
mammoth do not); and when this happens inside `analyze-resume` the failure
surfaces to the HTTP caller as a 500 response carrying the message, not as a
400. -/
theorem unsupported_format_spec (env : Env) (b : Buffer) (hint : String)
    (hp : ∀ e, env.pdfPrimary b = .error e → e.msg ≠ unsupportedMsg)
    (hf : ∀ e, env.pdfFallback b = .error e → e.msg ≠ unsupportedMsg)
    (hd : ∀ e, env.docxExtract b = .error e → e.msg ≠ unsupportedMsg) :
    (extractText env b hint = .error ⟨unsupportedMsg⟩
        ↔ (effectiveMime env b hint ≠ "application/pdf"
            ∧ effectiveMime env b hint ≠ docxMime
            ∧ effectiveMime env b hint ≠ "application/msword"
            ∧ jsTrim (env.utf8 b) = ""))
      ∧ (includesStr unsupportedMsg "PDF" = true
          ∧ includesStr unsupportedMsg "DOCX" = true
          ∧ includesStr unsupportedMsg "DOC" = true
          ∧ includesStr unsupportedMsg "TXT" = true)
      ∧ ∀ (ai : String → Except Err String) (jsonParse : String → Except Err String)
          (rt : String) (mt : Option String),
          rt ≠ "" →
          env.b64decode (stripDataUrl rt) = b →
          mt.getD "" = hint →
          extractText env b hint = .error ⟨unsupportedMsg⟩ →
          analyzeResume env ai jsonParse ⟨some rt, mt⟩ = mk500 unsupportedMsg := by
  refine ⟨?_, ⟨by decide, by decide, by decide, by decide⟩, ?_⟩
  · constructor
    · intro hx
      unfold extractText at hx
      by_cases h1 : effectiveMime env b hint = "application/pdf"
      · rw [if_pos h1] at hx
        exfalso
        cases hpp : env.pdfPrimary b with
        | ok t => rw [hpp] at hx; dsimp only at hx; exact Except.noConfusion hx
        | error e =>
          rw [hpp] at hx
          dsimp only at hx
          by_cases hfr : fontRelated e.msg = true
          · rw [if_pos hfr] at hx
            exact hf ⟨unsupportedMsg⟩ hx rfl
          · rw [if_neg hfr] at hx
            injection hx with h2
            exact hp e hpp (congrArg Err.msg h2)
      · rw [if_neg h1] at hx
        by_cases h2 : (effectiveMime env b hint = docxMime
            ∨ effectiveMime env b hint = "application/msword")
        · exfalso
          rw [if_pos (by simpa using h2)] at hx
          exact hd ⟨unsupportedMsg⟩ hx rfl
        · push_neg at h2
          rw [if_neg (by simpa using h2)] at hx
          by_cases h3 : (jsTrim (env.utf8 b)).length > 0
          · rw [if_pos h3] at hx; exact Except.noConfusion hx
          · exact ⟨h1, h2.1, h2.2, (jsTrim_eq_empty_iff _).mpr (by omega)⟩
    · rintro ⟨h1, h2, h3, h4⟩
      unfold extractText
      rw [if_neg h1]
      rw [if_neg (by simpa using not_or_intro h2 h3)]
      rw [if_neg (by rw [h4]; simp)]
  · intro ai jsonParse rt mt h0 hb hm hx
    simp only [analyzeResume]
    rw [if_neg h0, hb, hm, hx]
    dsimp only
    rw [if_neg (by decide : ¬(unsupportedMsg = ""))]

/-- Witness for C7: in a concrete environment with no content match, an empty
hint and an empty decode, `analyze-resume` answers 500 with the
unsupported-file-type message. -/
theorem unsupported_format_spec_witness :
    analyzeResume envPlainAscii (fun _ => .error ⟨"unused"⟩)
        (fun s => (.ok s : Except Err String)) ⟨some "////", none⟩
      = mk500 unsupportedMsg := by
  have hside : ∀ s : String, ∀ e : Err, Except.error (α := String) ⟨s⟩ = .error e →
      e.msg = s := by
    intro s e he
    injection he with h'
    rw [← h']
  have h := unsupported_format_spec envPlainAscii [] ""
    (fun e he => by rw [hside "pdf failed" e he]; decide)
    (fun e he => by rw [hside "pdf failed" e he]; decide)
    (fun e he => by rw [hside "docx failed" e he]; decide)
  exact h.2.2 _ _ "////" none (by decide) rfl rfl
    (h.1.mpr ⟨by decide, by decide, by decide, rfl⟩)

end ResumeCritic
